import Mathlib

/-!
Shallow embedding of the `Logger` package of GnezIew/LogCollection
(`src/unnamed/part_000`, the current revision of `logger.go`; the older
revision `src/Logger/logger.go` lacks the queue and the suffix check and is
superseded).  Go strings are modelled as Lean `String`/`List Char`,
`time.Time` as an explicit record of calendar fields, the filesystem as an
association list from file name to accumulated contents, and the message
channel as a bounded list.  Machine integers never overflow in this code, so
`Int`/`Nat` are used directly.
-/

namespace LogCollection

/-- Go `time.Time`, restricted to the fields the package ever formats
(second precision: `Format("2006-01-02")` and `Format("2006-01-02 15:04:05")`). -/
structure GoTime where
  year : Nat
  month : Nat
  day : Nat
  hour : Nat
  minute : Nat
  second : Nat
deriving DecidableEq, Repr

/-- Zero-padding to two digits, as Go layout `01`/`02`/`15`/`04`/`05` prints. -/
def pad2 (n : Nat) : String :=
  if n < 10 then "0" ++ toString n else toString n

/-- Zero-padding to four digits, as Go layout `2006` prints the year. -/
def pad4 (n : Nat) : String :=
  if n < 10 then "000" ++ toString n
  else if n < 100 then "00" ++ toString n
  else if n < 1000 then "0" ++ toString n
  else toString n

/-- Go `t.Format("2006-01-02")`. -/
def formatDate (t : GoTime) : String :=
  pad4 t.year ++ "-" ++ pad2 t.month ++ "-" ++ pad2 t.day

/-- Go `t.Format("2006-01-02 15:04:05")` — wall-clock timestamp at second
precision, as used in every formatted log line. -/
def formatDateTime (t : GoTime) : String :=
  formatDate t ++ " " ++ pad2 t.hour ++ ":" ++ pad2 t.minute ++ ":" ++ pad2 t.second

/-- `formatLogFileName` (logger.go): `data.Format("2006-01-02") + ".log"`. -/
def formatLogFileName (data : GoTime) : String :=
  formatDate data ++ ".log"

/-- Index of the last `'.'` in a byte/char sequence, if any: the loop in
`getFunctionName` scans `i` from `len-1` down to `0` and stops at the first
`'.'` found, which is the last occurrence. -/
def lastDotFrom : List Char → Option Nat
  | [] => none
  | c :: cs =>
    match lastDotFrom cs with
    | some i => some (i + 1)
    | none => if c = '.' then some 0 else none

/-- `getFunctionName` (logger.go), on the character list of the Go string:
`lastDotIndex` starts at `0`, is set to the index of the last `'.'` when one
exists, and the function returns `fullName[lastDotIndex+1:]` (empty input is
returned as the empty string). -/
def getFnChars (fullName : List Char) : List Char :=
  let lastDotIndex := (lastDotFrom fullName).getD 0
  if fullName = [] then [] else fullName.drop (lastDotIndex + 1)

/-- `getFunctionName` (logger.go) on Go strings. -/
def getFunctionName (fullName : String) : String :=
  String.mk (getFnChars fullName.data)

/-- Go `strings.HasSuffix(s, suffix)`. -/
def hasSuffixGo (s suffix : String) : Bool :=
  decide (suffix.data.length ≤ s.data.length) &&
    decide (s.data.drop (s.data.length - suffix.data.length) = suffix.data)

/-- An argument to Go `fmt.Sprintf`, restricted to the verbs this package
uses (`%s` and `%d`). -/
inductive GoArg where
  | s : String → GoArg
  | d : Int → GoArg
deriving DecidableEq, Repr

/-- Go `fmt.Sprintf` restricted to the `%s`/`%d` verbs, the only ones the
package's format strings use; other characters are copied verbatim. -/
def sprintf : List Char → List GoArg → String
  | [], _ => ""
  | '%' :: 's' :: rest, GoArg.s v :: args => v ++ sprintf rest args
  | '%' :: 'd' :: rest, GoArg.d v :: args => toString v ++ sprintf rest args
  | c :: rest, args => String.singleton c ++ sprintf rest args

/-- Level constants (logger.go): `Debug = iota + 1`, so Debug = 1, Info = 2,
Error = 3. -/
def Debug : Int := 1

/-- Level constant Info = 2. -/
def Info : Int := 2

/-- Level constant Error = 3. -/
def Error : Int := 3

/-- The filesystem visible to the writer: file name ↦ accumulated contents.
`os.OpenFile` with `O_CREATE|O_APPEND|O_WRONLY` creates an empty entry if
absent; `WriteString` appends. -/
def ensureFile : List (String × String) → String → List (String × String)
  | [], n => [(n, "")]
  | (m, c) :: rest, n => if m = n then (m, c) :: rest else (m, c) :: ensureFile rest n

/-- Append `s` to the contents of file `n` (no-op when the file is absent;
in the model every open handle's file exists). -/
def appendFile : List (String × String) → String → String → List (String × String)
  | [], _, _ => []
  | (m, c) :: rest, n, s => if m = n then (m, c ++ s) :: rest else (m, c) :: appendFile rest n s

/-- Look up a file's contents. -/
def lookupFile : List (String × String) → String → Option String
  | [], _ => none
  | (m, c) :: rest, n => if m = n then some c else lookupFile rest n

/-- The `Log` struct (logger.go) together with the parts of the process state
its methods touch.  `currentFile *os.File` is modelled by `hasFile` (the
pointer is non-nil) plus `fileOpen` (the handle has not been closed) plus
`currentFileName` (which filesystem entry the handle appends to);
`logChannels chan string` by the pending message list `logChannels`, its
capacity `chanCap`, and `channelClosed`; the disk by `files`.  The mutex only
serialises `createLogFile`, and the model is sequential per step, so it needs
no field. -/
structure LogState where
  LogLevel : Int
  FilePath : String
  MaxDay : Int
  hasFile : Bool
  fileOpen : Bool
  currentFileName : String
  currentDate : String
  logChannels : List String
  chanCap : Nat
  channelClosed : Bool
  files : List (String × String)
deriving DecidableEq, Repr

/-- `NewLogger` returns `new(Log)`: the zero value of the struct. -/
def newLogger : LogState :=
  { LogLevel := 0, FilePath := "", MaxDay := 0, hasFile := false, fileOpen := false,
    currentFileName := "", currentDate := "", logChannels := [], chanCap := 0,
    channelClosed := false, files := [] }

/-- `InitLogger` (logger.go): defaults Info / 7 days / `"."`, and
`make(chan string, 3000)`.  The `clearOldLogs` goroutine it fires touches only
the disk, modelled separately by `clearOldLogs`. -/
def initLogger (st : LogState) : LogState :=
  { st with LogLevel := Info, MaxDay := 7, FilePath := ".",
            logChannels := [], chanCap := 3000, channelClosed := false }

/-- `relativePathToAbsPath` (logger.go).  `filepath.Abs` is OS code, so its
outcome is an explicit argument: `none` models a failed resolution.  The
result is the returned path together with the lines printed to standard
output (`fmt.Println`): on failure the error report, on success the resolved
path; the function never returns an error. -/
def relativePathToAbsPath (Path : String) (absResult : Option String) : String × List String :=
  match absResult with
  | none => ("", ["Failed to get absolute path: " ++ Path])
  | some absolutePath => (absolutePath, [absolutePath])

/-- `GetLevelString` (logger.go): the Go `switch` leaves `Level` as the empty
string when `LogLevel` matches no case. -/
def GetLevelString (l : LogState) : String :=
  if l.LogLevel = Debug then "Debug"
  else if l.LogLevel = Info then "Info"
  else if l.LogLevel = Error then "Error"
  else ""

/-- `SetLogger` (logger.go).  `now` stands for the `time.Now()` calls,
`absResult` for the outcome of `filepath.Abs`.  `os.MkdirAll` touches only
directories, and the `os.OpenFile` of today's file succeeds in the model (on
failure the process dies via `log.Fatal`).  Note the faithful quirk: the
recorded `currentDate` is `formatLogFileName now` — the file NAME, with the
`".log"` suffix — while `createLogFile` later records the bare date. -/
def setLogger (Level : Int) (FilePath : String) (MaxDay : Int) (now : GoTime)
    (absResult : Option String) (st : LogState) : LogState :=
  let st := initLogger st
  let st :=
    if Level ≠ 0 then
      if Level = Debug then { st with LogLevel := Debug }
      else if Level = Info then { st with LogLevel := Info }
      else if Level = Error then { st with LogLevel := Error }
      else st
    else st
  let st := if FilePath ≠ "" then { st with FilePath := FilePath } else st
  let st := { st with FilePath := (relativePathToAbsPath st.FilePath absResult).1 }
  let st := { st with MaxDay := MaxDay }
  let name := st.FilePath ++ "/" ++ formatLogFileName now
  { st with files := ensureFile st.files name, hasFile := true, fileOpen := true,
            currentFileName := name, currentDate := formatLogFileName now }

/-- `createLogFile` (logger.go): under the mutex, close the current file
(errors ignored), open `formatLogFileName(time.Now())` in the log directory,
record `date.Format("2006-01-02")`.  Source passes `date` and reads
`time.Now()` separately; both call sites pass `time.Now()`, kept as two
arguments for fidelity. -/
def createLogFile (date : GoTime) (now : GoTime) (st : LogState) : LogState :=
  let st := if st.hasFile then { st with fileOpen := false } else st
  let name := st.FilePath ++ "/" ++ formatLogFileName now
  { st with files := ensureFile st.files name, hasFile := true, fileOpen := true,
            currentFileName := name, currentDate := formatDate date }

/-- `currentFile.WriteString(logline)`: appends when the handle is still
open; a write through a closed handle returns an error which the source
discards (`_, _ =`), so nothing is written. -/
def writeString (st : LogState) (s : String) : LogState :=
  if st.fileOpen then { st with files := appendFile st.files st.currentFileName s } else st

/-- One iteration of the writer loop in `logWriteToFile` (logger.go): take
the next line from the channel; skip empty lines; rotate via `createLogFile`
when `time.Now().Format("2006-01-02")` differs from the recorded
`currentDate`; write the line.  The fire-and-forget `clearOldLogs` goroutine
touches only stale on-disk files, modelled separately. -/
def writerStep (now : GoTime) (st : LogState) : LogState :=
  match st.logChannels with
  | [] => st
  | logline :: rest =>
    let st := { st with logChannels := rest }
    if logline ≠ "" then
      let currentDate := formatDate now
      let st := if currentDate ≠ st.currentDate then createLogFile now now st else st
      writeString st logline
    else st

/-- The rotation condition checked by `logWriteToFile` before each write:
`currentDate != l.currentDate`. -/
def rotationTriggered (now : GoTime) (st : LogState) : Bool :=
  formatDate now != st.currentDate

/-- A send on `chan string` of capacity `cap`: completes only when the
channel is open and has room, in which case the message joins the back of the
queue; `none` means the send does not complete now (a full channel blocks the
caller; a closed channel never accepts — in Go it panics). -/
def chanSend (cap : Nat) (closed : Bool) (q : List String) (m : String) : Option (List String) :=
  if closed then none
  else if q.length < cap then some (q ++ [m]) else none

/-- Caller metadata captured by `runtime.Caller` / `runtime.FuncForPC` at the
call site. -/
structure CallerInfo where
  file : String
  line : Int
  funcName : String
deriving DecidableEq, Repr

/-- `logWithCallerInfo` (logger.go):
`fmt.Sprintf("[%s][%s] fileLine:%s:%d funcName:%s;message:%s\n", Level,
time.Now().Format("2006-01-02 15:04:05"), file, line,
getFunctionName(funcName), logline)`. -/
def logWithCallerInfo (l : LogState) (now : GoTime) (ci : CallerInfo) (logline : String) : String :=
  sprintf ("[%s][%s] fileLine:%s:%d funcName:%s;message:%s\n").data
    [GoArg.s (GetLevelString l), GoArg.s (formatDateTime now), GoArg.s ci.file,
     GoArg.d ci.line, GoArg.s (getFunctionName ci.funcName), GoArg.s logline]

/-- `syncWriteLog` (logger.go): format the user message with `fmt.Sprintf`,
wrap it with caller info, and send it on the channel.  `none` models the
caller still blocked on a full channel (or a forbidden send on a closed
one). -/
def syncWriteLog (st : LogState) (now : GoTime) (ci : CallerInfo)
    (format : String) (a : List GoArg) : Option LogState :=
  let message := logWithCallerInfo st now ci (sprintf format.data a)
  match chanSend st.chanCap st.channelClosed st.logChannels message with
  | some q => some { st with logChannels := q }
  | none => none

/-- `Errorf` (logger.go): `l.LogLevel = Error` first, then `syncWriteLog`. -/
def Errorf (st : LogState) (now : GoTime) (ci : CallerInfo)
    (format : String) (a : List GoArg) : Option LogState :=
  syncWriteLog { st with LogLevel := Error } now ci format a

/-- `Infof` (logger.go): just `syncWriteLog`. -/
def Infof (st : LogState) (now : GoTime) (ci : CallerInfo)
    (format : String) (a : List GoArg) : Option LogState :=
  syncWriteLog st now ci format a

/-- `Close` (logger.go): `close(l.logChannels)` and then, immediately, close
the current file if non-nil (errors ignored).  There is no synchronisation
with the writer goroutine. -/
def closeLogger (st : LogState) : LogState :=
  let st := { st with channelClosed := true }
  if st.hasFile then { st with fileOpen := false } else st

/-- A filesystem entry as `filepath.Walk` presents it to the walk function:
its path, whether `info.IsDir()`, and `info.ModTime()` as seconds. -/
structure FileEntry where
  path : String
  isDir : Bool
  modTime : Int
deriving DecidableEq, Repr

/-- The cutoff computed by `clearOldLogs`:
`time.Now().AddDate(0, 0, -int(l.MaxDay))`, i.e. `now` minus `maxDay`
days. -/
def cutoffTime (now : Int) (maxDay : Int) : Int :=
  now - maxDay * 86400

/-- The walk function of `clearOldLogs` (logger.go), as a deletion
predicate: directories are skipped; a file whose `ModTime` is before the
cutoff is removed only when its path ends in `".log"`.  (The source also
logs a `Removed` line for every stale file, even ones it does not delete;
only deletion matters here.) -/
def walkRemoves (cutoff : Int) (f : FileEntry) : Bool :=
  if f.isDir then false
  else if f.modTime < cutoff then hasSuffixGo f.path ".log" else false

/-- `clearOldLogs` (logger.go): the files remaining on disk after the sweep
walks `files` (deletes are the only mutation; errors abort early, and in the
model every delete succeeds). -/
def clearOldLogs (cutoff : Int) (files : List FileEntry) : List FileEntry :=
  files.filter (fun f => ! walkRemoves cutoff f)

/-- An atomic step of the running system: a producer's send completing
(`Infof`/`Errorf` after formatting), the writer goroutine consuming one
message, or `Close` running.  `Close` performs its two statements without any
handoff to the writer, so it is one step. -/
inductive Act where
  | push : String → Act
  | writer : GoTime → Act
  | closeOp : Act
deriving DecidableEq, Repr

/-- Effect of one step on the state. -/
def step (st : LogState) : Act → LogState
  | Act.push m =>
    match chanSend st.chanCap st.channelClosed st.logChannels m with
    | some q => { st with logChannels := q }
    | none => st
  | Act.writer now => writerStep now st
  | Act.closeOp => closeLogger st

/-- Whether a step can fire: a send completes only on an open channel with
room (otherwise the producer stays blocked); the writer consumes only when a
message is pending; `Close` can always run. -/
def canStep (st : LogState) : Act → Bool
  | Act.push _ => !st.channelClosed && decide (st.logChannels.length < st.chanCap)
  | Act.writer _ => !st.logChannels.isEmpty
  | Act.closeOp => true

/-- Run a trace of steps. -/
def run (st : LogState) (tr : List Act) : LogState :=
  tr.foldl step st

/-- A trace is legal from `st` when every step fires from the state the
previous steps produced. -/
def legalFrom (st : LogState) : List Act → Bool
  | [] => true
  | a :: rest => canStep st a && legalFrom (step st a) rest

/-! Helper lemmas shared by the claim theorems. -/

/-- Two Go strings with the same character data are equal. -/
theorem strExt {s t : String} (h : s.data = t.data) : s = t := by
  cases s
  cases t
  exact congrArg String.mk h

/-- `lastDotFrom` finds nothing exactly when the string has no `'.'`. -/
theorem lastDotFrom_none_iff (l : List Char) : lastDotFrom l = none ↔ '.' ∉ l := by
  induction l with
  | nil => simp [lastDotFrom]
  | cons c cs ih =>
    rw [lastDotFrom]
    cases h : lastDotFrom cs with
    | some i =>
      have : '.' ∈ cs := by
        by_contra hn
        rw [← ih] at hn
        rw [hn] at h
        exact Option.noConfusion h
      simp [this]
    | none =>
      have hnotin : '.' ∉ cs := ih.mp h
      by_cases hc : c = '.'
      · simp [hc]
      · simp [hc, hnotin, Ne.symm hc]

/-- When `lastDotFrom` returns `some i`, position `i` carries the last `'.'`:
the string splits as a prefix of length `i`, the dot, and a dot-free tail. -/
theorem lastDotFrom_spec (l : List Char) (i : Nat) (h : lastDotFrom l = some i) :
    ∃ pre : List Char, pre.length = i ∧ l = pre ++ '.' :: l.drop (i + 1) ∧
      '.' ∉ l.drop (i + 1) := by
  induction l generalizing i with
  | nil => simp [lastDotFrom] at h
  | cons c cs ih =>
    rw [lastDotFrom] at h
    cases h2 : lastDotFrom cs with
    | some j =>
      rw [h2] at h
      injection h with h
      subst h
      obtain ⟨pre, hlen, hdec, hnot⟩ := ih j h2
      refine ⟨c :: pre, by simp [hlen], ?_, ?_⟩
      · simpa [List.drop] using hdec
      · simpa [List.drop] using hnot
    | none =>
      rw [h2] at h
      by_cases hc : c = '.'
      · rw [if_pos hc] at h
        injection h with h
        subst h
        subst hc
        exact ⟨[], rfl, by simp, (lastDotFrom_none_iff cs).mp h2⟩
      · rw [if_neg hc] at h
        exact absurd h (by simp)

/-- The deletion predicate of the sweep, unfolded: a file is removed exactly
when it is not a directory, is older than the cutoff, and carries the `.log`
suffix. -/
theorem walkRemoves_true_iff (cutoff : Int) (f : FileEntry) :
    walkRemoves cutoff f = true ↔
      f.isDir = false ∧ f.modTime < cutoff ∧ hasSuffixGo f.path ".log" = true := by
  unfold walkRemoves
  split_ifs with h1 h2 <;> simp_all

/-- The line built by `logWithCallerInfo`, with its `fmt.Sprintf` template
interpreted away. -/
theorem logWithCallerInfo_eq (l : LogState) (now : GoTime) (ci : CallerInfo) (logline : String) :
    logWithCallerInfo l now ci logline =
      "[" ++ GetLevelString l ++ "][" ++ formatDateTime now ++ "] fileLine:" ++ ci.file ++
        ":" ++ toString ci.line ++ " funcName:" ++ getFunctionName ci.funcName ++
        ";message:" ++ logline ++ "\n" := by
  apply strExt
  simp [logWithCallerInfo, sprintf, String.data_append, String.singleton]

/-! The claims. -/

/-- C1: the claim says the date recorded when `SetLogger` opens today's file
equals today's date, so that a write processed on the same calendar day does
not rotate.  The code records `formatLogFileName now` — the file NAME
`"2024-01-02.log"` — in `currentDate`, while the writer compares it with the
bare date `"2024-01-02"`; the comparison is therefore true and the very first
same-day write runs `createLogFile` (which then stores the bare date, as the
field's intent and the rest of the code expect).  This contradicts the
claimed invariant on the code's own terms: `createLogFile` records
`date.Format("2006-01-02")` for the same field. -/
theorem c1_same_day_first_write_rotates :
    (let d : GoTime := ⟨2024, 1, 2, 10, 5, 3⟩
     let st := setLogger Info "logs" 7 d (some "/logs") newLogger
     st.currentDate = "2024-01-02.log" ∧
     formatDate d = "2024-01-02" ∧
     rotationTriggered d st = true ∧
     (writerStep d { st with logChannels := ["x\n"] }).currentDate = "2024-01-02") := by
  decide

/-- C2 counterexample: the claim says `Close` lets the writer drain and only
then closes the file handle, so every message enqueued before `Close` is
written.  In the code `Close` closes the channel and the file back to back
with no synchronisation.  In the legal schedule below, `"b\n"` is enqueued
(step 3) before `Close` runs (step 4), the writer then drains it (step 5),
yet the final file holds only `"a\n"`: the write went through a closed handle
and its error was discarded. -/
theorem c2_close_loses_pending_message_cex :
    (let d : GoTime := ⟨2024, 1, 2, 10, 5, 3⟩
     let st := setLogger Info "logs" 7 d (some "/logs") newLogger
     let tr := [Act.push "a\n", Act.writer d, Act.push "b\n", Act.closeOp, Act.writer d]
     legalFrom st tr = true ∧
     (run st tr).logChannels = [] ∧
     (run st tr).channelClosed = true ∧
     (run st tr).fileOpen = false ∧
     lookupFile (run st tr).files "/logs/2024-01-02.log" = some "a\n") := by
  decide

/-- C2 amended: `Close` closes the queue (no further pushes) and then
immediately closes the open file handle, ignoring close errors, without
waiting for the writer task: pending messages stay queued, the disk is left
as is, and a write attempted through the closed handle changes nothing. -/
theorem c2_close_immediate_amended (st : LogState) (h : st.hasFile = true) :
    (closeLogger st).channelClosed = true ∧
    (closeLogger st).fileOpen = false ∧
    (closeLogger st).logChannels = st.logChannels ∧
    (closeLogger st).files = st.files ∧
    ∀ s : String, writeString (closeLogger st) s = closeLogger st := by
  refine ⟨by simp [closeLogger, h], by simp [closeLogger, h], by simp [closeLogger, h],
    by simp [closeLogger, h], ?_⟩
  intro s
  simp [writeString, closeLogger, h]

/-- C2 witness: the amended statement at a concrete state with an open
file. -/
theorem c2_close_immediate_amended_witness :
    (closeLogger { newLogger with hasFile := true }).channelClosed = true ∧
    (closeLogger { newLogger with hasFile := true }).fileOpen = false ∧
    (closeLogger { newLogger with hasFile := true }).logChannels =
      ({ newLogger with hasFile := true } : LogState).logChannels ∧
    (closeLogger { newLogger with hasFile := true }).files =
      ({ newLogger with hasFile := true } : LogState).files ∧
    ∀ s : String, writeString (closeLogger { newLogger with hasFile := true }) s =
      closeLogger { newLogger with hasFile := true } :=
  c2_close_immediate_amended { newLogger with hasFile := true } rfl

/-- C3: `Errorf` stores `Error` in the shared `LogLevel` before formatting,
so the resulting state carries level `Error` for every later observer and the
line it enqueues is tagged `[Error][…`. -/
theorem c3_errorf_sets_level_error (st : LogState) (now : GoTime) (ci : CallerInfo)
    (format : String) (a : List GoArg)
    (hopen : st.channelClosed = false) (hroom : st.logChannels.length < st.chanCap) :
    ∃ st2, Errorf st now ci format a = some st2 ∧
      st2.LogLevel = Error ∧
      st2.logChannels = st.logChannels ++
        [logWithCallerInfo { st with LogLevel := Error } now ci (sprintf format.data a)] ∧
      ∃ rest, logWithCallerInfo { st with LogLevel := Error } now ci (sprintf format.data a) =
        "[Error][" ++ rest := by
  refine ⟨{ { st with LogLevel := Error } with logChannels := st.logChannels ++ [logWithCallerInfo { st with LogLevel := Error } now ci (sprintf format.data a)] }, ?_, rfl, rfl, ?_⟩
  · simp [Errorf, syncWriteLog, chanSend, hopen, hroom]
  · refine ⟨formatDateTime now ++ "] fileLine:" ++ ci.file ++ ":" ++ toString ci.line ++
      " funcName:" ++ getFunctionName ci.funcName ++ ";message:" ++
      sprintf format.data a ++ "\n", ?_⟩
    apply strExt
    simp [logWithCallerInfo, sprintf, String.data_append, String.singleton,
      GetLevelString, Debug, Info, Error]

/-- C3 witness: `Errorf` on the freshly initialised logger (open channel,
room for 3000). -/
theorem c3_errorf_sets_level_error_witness :
    ∃ st2, Errorf (initLogger newLogger) ⟨2024, 1, 2, 10, 5, 3⟩
        ⟨"/src/main.go", 42, "main.run"⟩ "hi" [] = some st2 ∧
      st2.LogLevel = Error ∧
      st2.logChannels = (initLogger newLogger).logChannels ++
        [logWithCallerInfo { initLogger newLogger with LogLevel := Error }
          ⟨2024, 1, 2, 10, 5, 3⟩ ⟨"/src/main.go", 42, "main.run"⟩
          (sprintf ("hi" : String).data [])] ∧
      ∃ rest, logWithCallerInfo { initLogger newLogger with LogLevel := Error }
          ⟨2024, 1, 2, 10, 5, 3⟩ ⟨"/src/main.go", 42, "main.run"⟩
          (sprintf ("hi" : String).data []) = "[Error][" ++ rest :=
  c3_errorf_sets_level_error (initLogger newLogger) ⟨2024, 1, 2, 10, 5, 3⟩
    ⟨"/src/main.go", 42, "main.run"⟩ "hi" [] rfl (by decide)

/-- C4: the retention sweep deletes a walked file exactly when it is a
regular file (not a directory), its modification time is before the cutoff,
and its name ends in `".log"`; every other file survives the sweep. -/
theorem c4_sweep_deletes_exactly_stale_logs (cutoff : Int) (files : List FileEntry)
    (f : FileEntry) (h : f ∈ files) :
    f ∉ clearOldLogs cutoff files ↔
      f.isDir = false ∧ f.modTime < cutoff ∧ hasSuffixGo f.path ".log" = true := by
  rw [← walkRemoves_true_iff]
  simp [clearOldLogs, List.mem_filter, h]

/-- C4 witness: with cutoff 100, the stale `old.log` is deleted while the
directory, the stale `old.txt`, and the fresh `new.log` all survive. -/
theorem c4_sweep_deletes_exactly_stale_logs_witness :
    (⟨"old.log", false, 50⟩ : FileEntry) ∈
      [(⟨"d", true, 0⟩ : FileEntry), ⟨"old.log", false, 50⟩,
        ⟨"old.txt", false, 50⟩, ⟨"new.log", false, 200⟩] ∧
    (⟨"old.log", false, 50⟩ : FileEntry) ∉
      clearOldLogs 100 [⟨"d", true, 0⟩, ⟨"old.log", false, 50⟩,
        ⟨"old.txt", false, 50⟩, ⟨"new.log", false, 200⟩] :=
  ⟨by decide,
    (c4_sweep_deletes_exactly_stale_logs 100
      [⟨"d", true, 0⟩, ⟨"old.log", false, 50⟩, ⟨"old.txt", false, 50⟩, ⟨"new.log", false, 200⟩]
      ⟨"old.log", false, 50⟩ (by decide)).mpr (by decide)⟩

/-- C5: every formatted log line is exactly
`[<LEVEL>][<timestamp>] fileLine:<file>:<line> funcName:<short>;message:<msg>`
plus a newline, with the level tag from the current level, the wall-clock
timestamp at second precision, and the short function name; and the file a
rotation opens for the day being written is named `YYYY-MM-DD.log` inside the
log directory. -/
theorem c5_line_and_file_name_format (l : LogState) (now : GoTime) (ci : CallerInfo)
    (logline : String) (d : GoTime) (st : LogState) :
    logWithCallerInfo l now ci logline =
      "[" ++ GetLevelString l ++ "][" ++ formatDateTime now ++ "] fileLine:" ++ ci.file ++
        ":" ++ toString ci.line ++ " funcName:" ++ getFunctionName ci.funcName ++
        ";message:" ++ logline ++ "\n" ∧
    formatLogFileName d = formatDate d ++ ".log" ∧
    (createLogFile d d st).currentFileName = st.FilePath ++ "/" ++ (formatDate d ++ ".log") := by
  refine ⟨logWithCallerInfo_eq l now ci logline, rfl, ?_⟩
  unfold createLogFile formatLogFileName
  split_ifs <;> rfl

/-- C6 counterexample: the claim says an invalid nonzero level falls through
to whatever was previously set.  With the level previously set to Debug,
`SetLogger` with the invalid level 7 stores Info — the default installed by
the `InitLogger` call at the top of `SetLogger` — not the previous Debug. -/
theorem c6_invalid_level_resets_to_info_cex :
    (setLogger 7 "logs" 7 ⟨2024, 1, 2, 0, 0, 0⟩ (some "/logs")
        { newLogger with LogLevel := Debug }).LogLevel = Info ∧
    ({ newLogger with LogLevel := Debug } : LogState).LogLevel = Debug ∧
    Info ≠ Debug := by
  decide

/-- C6 amended: a nonzero level other than Debug/Info/Error (1–3) raises no
validation error and is silently ignored by the level switch; because
`SetLogger` first re-initialises defaults, the stored level is the default
Info, not the value set before the call. -/
theorem c6_invalid_level_ignored_amended (Level : Int) (FilePath : String) (MaxDay : Int)
    (now : GoTime) (ar : Option String) (st : LogState)
    (h0 : Level ≠ 0) (h1 : Level ≠ Debug) (h2 : Level ≠ Info) (h3 : Level ≠ Error) :
    (setLogger Level FilePath MaxDay now ar st).LogLevel = Info := by
  simp only [setLogger, initLogger]
  simp [h0, h1, h2, h3]
  split_ifs <;> rfl

/-- C6 witness: the amended statement at the invalid level 7. -/
theorem c6_invalid_level_ignored_amended_witness :
    (setLogger 7 "x" 7 ⟨2024, 1, 2, 0, 0, 0⟩ none newLogger).LogLevel = Info :=
  c6_invalid_level_ignored_amended 7 "x" 7 ⟨2024, 1, 2, 0, 0, 0⟩ none newLogger
    (by decide) (by decide) (by decide) (by decide)

/-- C7: the message channel is created with fixed capacity 3000; a send on a
full open channel does not complete (the caller blocks — nothing is dropped
and no error is produced), and a send with room appends the message, losing
nothing. -/
theorem c7_bounded_queue_capacity_3000 (st : LogState) (q : List String) (m : String) :
    (initLogger st).chanCap = 3000 ∧
    (3000 ≤ q.length → chanSend 3000 false q m = none) ∧
    (q.length < 3000 → chanSend 3000 false q m = some (q ++ [m])) := by
  refine ⟨rfl, ?_, ?_⟩
  · intro h
    simp [chanSend, Nat.not_lt.mpr h]
  · intro h
    simp [chanSend, h]

/-- C7 witness: the capacity, a completing send, and a blocked send on a full
channel of 3000 messages. -/
theorem c7_bounded_queue_capacity_3000_witness :
    (initLogger newLogger).chanCap = 3000 ∧
    chanSend 3000 false [] "x" = some ["x"] ∧
    chanSend 3000 false (List.replicate 3000 "x") "y" = none :=
  ⟨(c7_bounded_queue_capacity_3000 newLogger [] "x").1,
   (c7_bounded_queue_capacity_3000 newLogger [] "x").2.2 (by decide),
   (c7_bounded_queue_capacity_3000 newLogger (List.replicate 3000 "x") "y").2.1
     (by simp only [List.length_replicate]; exact le_rfl)⟩

/-- C8: whenever the captured fully qualified function name contains the
separator `'.'`, the formatted short name is exactly the substring after its
last occurrence: the input splits as a prefix, that last dot, and the
returned dot-free remainder. -/
theorem c8_short_name_after_last_dot (s : String) (h : '.' ∈ s.data) :
    ∃ pre : List Char, s.data = pre ++ '.' :: (getFunctionName s).data ∧
      '.' ∉ (getFunctionName s).data := by
  have hne : s.data ≠ [] := by
    intro he
    rw [he] at h
    exact absurd h (List.not_mem_nil _)
  cases hld : lastDotFrom s.data with
  | none => exact absurd h ((lastDotFrom_none_iff _).mp hld)
  | some i =>
    obtain ⟨pre, hlen, hdec, hnot⟩ := lastDotFrom_spec _ _ hld
    have hg : (getFunctionName s).data = s.data.drop (i + 1) := by
      simp [getFunctionName, getFnChars, hld, hne]
    rw [hg]
    exact ⟨pre, hdec, hnot⟩

/-- C8 witness: the qualified name `main.run` shortens to `run`. -/
theorem c8_short_name_after_last_dot_witness :
    ∃ pre : List Char, ("main.run" : String).data =
        pre ++ '.' :: (getFunctionName "main.run").data ∧
      '.' ∉ (getFunctionName "main.run").data :=
  c8_short_name_after_last_dot "main.run" (by decide)

/-- C9: when `filepath.Abs` fails inside `relativePathToAbsPath`, the failure
is printed to standard output and the function returns the empty string
instead of an error; `SetLogger` carries on and stores that empty string as
the log directory. -/
theorem c9_abs_failure_degrades_to_empty_path (Level : Int) (FilePath : String)
    (MaxDay : Int) (now : GoTime) (st : LogState) (Path : String) :
    relativePathToAbsPath Path none = ("", ["Failed to get absolute path: " ++ Path]) ∧
    (setLogger Level FilePath MaxDay now none st).FilePath = "" := by
  constructor
  · rfl
  · simp only [setLogger, initLogger, relativePathToAbsPath]

/-- C10: on a non-empty name without any `'.'`, `getFunctionName` returns the
input with its first character removed (the `lastDotIndex` default of 0 makes
the slice start at index 1); on the empty string it returns the empty
string. -/
theorem c10_no_dot_drops_first_char (s : String) :
    getFunctionName "" = "" ∧
    ('.' ∉ s.data → s.data ≠ [] → (getFunctionName s).data = s.data.drop 1) := by
  refine ⟨rfl, ?_⟩
  intro hd hne
  have hld : lastDotFrom s.data = none := (lastDotFrom_none_iff _).mpr hd
  simp [getFunctionName, getFnChars, hld, hne]

/-- C10 witness: `abc` has no dot and maps to `bc`. -/
theorem c10_no_dot_drops_first_char_witness :
    getFunctionName "" = "" ∧ (getFunctionName "abc").data = ("abc" : String).data.drop 1 :=
  ⟨(c10_no_dot_drops_first_char "abc").1,
   (c10_no_dot_drops_first_char "abc").2 (by decide) (by decide)⟩

end LogCollection
